import Mathlib

/-! Verification development for the demographic transition simulation
engine in diversityViz.js: a shallow embedding of the JavaScript number
semantics the code relies on, the snapshot interpolation routine, the
weighted category sampler, the per-agent transition scheduling, the 2-D
clustering force step, and the scrub throttling, together with theorems
settling the specification claims. -/

namespace DiversityViz

/-- Model of a JavaScript number as the code can produce it: a finite
value (idealized as an exact rational), NaN, or positive/negative
Infinity.  NaN and the infinities arise in this code base only through
division (`0/0`, `x/0`) and then propagate through arithmetic. -/
inductive JsVal where
  | num (q : ℚ)
  | nan
  | inf
  | ninf
deriving DecidableEq

/-- JavaScript addition on `JsVal` (IEEE-754 rules, finite values exact). -/
def jsAdd : JsVal → JsVal → JsVal
  | .num a, .num b => .num (a + b)
  | .nan, _ => .nan
  | _, .nan => .nan
  | .inf, .ninf => .nan
  | .ninf, .inf => .nan
  | .inf, _ => .inf
  | _, .inf => .inf
  | .ninf, _ => .ninf
  | _, .ninf => .ninf

/-- JavaScript subtraction on `JsVal`. -/
def jsSub : JsVal → JsVal → JsVal
  | .num a, .num b => .num (a - b)
  | .nan, _ => .nan
  | _, .nan => .nan
  | .inf, .inf => .nan
  | .ninf, .ninf => .nan
  | .inf, _ => .inf
  | _, .inf => .ninf
  | .ninf, _ => .ninf
  | _, .ninf => .inf

/-- JavaScript multiplication on `JsVal` (`0 * Infinity = NaN`). -/
def jsMul : JsVal → JsVal → JsVal
  | .num a, .num b => .num (a * b)
  | .nan, _ => .nan
  | _, .nan => .nan
  | .inf, .num b => if 0 < b then .inf else if b < 0 then .ninf else .nan
  | .num a, .inf => if 0 < a then .inf else if a < 0 then .ninf else .nan
  | .ninf, .num b => if 0 < b then .ninf else if b < 0 then .inf else .nan
  | .num a, .ninf => if 0 < a then .ninf else if a < 0 then .inf else .nan
  | .inf, .inf => .inf
  | .inf, .ninf => .ninf
  | .ninf, .inf => .ninf
  | .ninf, .ninf => .inf

/-- JavaScript division on `JsVal`: `0/0 = NaN`, `x/0 = ±Infinity` for
`x ≠ 0` (the zeros produced by this code base are positive zeros). -/
def jsDiv : JsVal → JsVal → JsVal
  | .num a, .num b =>
      if b = 0 then (if a = 0 then .nan else if 0 < a then .inf else .ninf)
      else .num (a / b)
  | .nan, _ => .nan
  | _, .nan => .nan
  | .num _, .inf => .num 0
  | .num _, .ninf => .num 0
  | .inf, .num b => if b < 0 then .ninf else .inf
  | .ninf, .num b => if b < 0 then .inf else .ninf
  | .inf, .inf => .nan
  | .inf, .ninf => .nan
  | .ninf, .inf => .nan
  | .ninf, .ninf => .nan

/-- JavaScript comparison `a <= b` on `JsVal`: false whenever either
operand is NaN. -/
def jsLe : JsVal → JsVal → Bool
  | .num a, .num b => decide (a ≤ b)
  | .nan, _ => false
  | _, .nan => false
  | .ninf, _ => true
  | _, .inf => true
  | .inf, .num _ => false
  | .inf, .ninf => false
  | .num _, .ninf => false

/-- Cumulative-threshold list built by the loop in `getWeightedCategory`
(diversityViz.js lines 402-406): running sum of `weights[key] / total`
in declaration order, paired with each key. -/
def cumThresholds (total : JsVal) (sum : JsVal) : List (String × JsVal) → List (String × JsVal)
  | [] => []
  | kv :: rest =>
      let s := jsAdd sum (jsDiv kv.2 total)
      (kv.1, s) :: cumThresholds total s rest

/-- Selection loop of `getWeightedCategory` (lines 411-414): return the
first label whose cumulative threshold satisfies
`pseudoRandom <= threshold`; otherwise fall back to
`cumulative[cumulative.length - 1].key`, which on an empty list is an
access on `undefined` (a TypeError), modelled as `none`. -/
def selectCategory (pseudoRandom : JsVal) (cumulative : List (String × JsVal)) : Option String :=
  match cumulative.find? (fun e => jsLe pseudoRandom e.2) with
  | some e => some e.1
  | none => cumulative.getLast?.map Prod.fst

/-- Embedding of `DiversityVisualizer.getWeightedCategory`
(diversityViz.js lines 399-415) with arbitrary `JsVal` weights (the
caller can pass NaN when an interpolated snapshot field is NaN).  The
weight map is modelled as an association list in the object's key
iteration order.  Returns `none` exactly when the weight list is empty,
in which case the source crashes on `cumulative[cumulative.length - 1].key`
(a TypeError on `undefined`). -/
def getWeightedCategoryJs (weights : List (String × JsVal)) (personIndex totalPeople : ℕ) : Option String :=
  let total := (weights.map Prod.snd).foldl jsAdd (JsVal.num 0)
  let cumulative := cumThresholds total (JsVal.num 0) weights
  let pseudoRandom := JsVal.num (((personIndex : ℚ) + 1) / ((totalPeople : ℚ) + 1))
  selectCategory pseudoRandom cumulative

/-- The sampler applied to an ordinary numeric weight map (every weight a
finite number), the common case discussed by the specification. -/
def getWeightedCategory (weights : List (String × ℚ)) (personIndex totalPeople : ℕ) : Option String :=
  getWeightedCategoryJs (weights.map (fun kv => (kv.1, JsVal.num kv.2))) personIndex totalPeople

/-- Position, in declaration order, of the label selected by the
selection loop: the first index whose cumulative threshold satisfies the
inclusive comparison, or the last index when none does. -/
def pickIdx (u : JsVal) (cum : List JsVal) : ℕ :=
  let k := cum.findIdx (fun c => jsLe u c)
  if k < cum.length then k else cum.length - 1

/-- The declaration-order index of the label `getWeightedCategory`
returns for a given agent. -/
def sampleIdx (weights : List (String × ℚ)) (personIndex totalPeople : ℕ) : ℕ :=
  let ws := weights.map (fun kv => (kv.1, JsVal.num kv.2))
  let total := (ws.map Prod.snd).foldl jsAdd (JsVal.num 0)
  let cum := cumThresholds total (JsVal.num 0) ws
  pickIdx (JsVal.num (((personIndex : ℚ) + 1) / ((totalPeople : ℚ) + 1))) (cum.map Prod.snd)

/-- Empirical snapshot record as loaded from the dataset: the monotonic
ordering key `corp_own_rate` plus the remaining named numeric fields, in
object key order. -/
structure Snapshot where
  corp_own_rate : ℚ
  fields : List (String × ℚ)
deriving DecidableEq, Inhabited

/-- Record produced by `getInterpolatedSnapshot`: the ordering key is a
finite number by construction, but the interpolated fields are JS
arithmetic results and can be NaN. -/
structure InterpRecord where
  corp_own_rate : ℚ
  fields : List (String × JsVal)
deriving DecidableEq

/-- Reading `upper[key]` in the interpolation loop: a present field is a
finite number; an absent field is `undefined`, which behaves as NaN in
the arithmetic that consumes it. -/
def lookupField (s : Snapshot) (k : String) : JsVal :=
  match s.fields.lookup k with
  | some v => JsVal.num v
  | none => JsVal.nan

/-- Adjacent pairs `(snapshots[i], snapshots[i+1])` scanned by the
bracket-search loop in `getInterpolatedSnapshot` (lines 373-382). -/
def adjacentPairs : List Snapshot → List (Snapshot × Snapshot)
  | a :: b :: rest => (a, b) :: adjacentPairs (b :: rest)
  | _ => []

/-- Bracket search of `getInterpolatedSnapshot` (lines 369-382): the
first adjacent pair whose keys enclose `targetRate`; if no pair does,
`lower`/`upper` keep their initial values `snapshots[0]` and
`snapshots[snapshots.length - 1]`. -/
def findBracket (snapshots : List Snapshot) (targetRate : ℚ) : Snapshot × Snapshot :=
  match (adjacentPairs snapshots).find?
      (fun pr => decide (pr.1.corp_own_rate ≤ targetRate) &&
        decide (targetRate ≤ pr.2.corp_own_rate)) with
  | some pr => pr
  | none => (snapshots.headI, snapshots.getLastI)

/-- Embedding of `DiversityVisualizer.getInterpolatedSnapshot`
(diversityViz.js lines 356-397).  Returns `none` when the data is not
ready or empty.  Note the source computes
`targetRate = minRate + progress * (maxRate - minRate)` on the raw
`progress` (no clamping), and
`t = (targetRate - lower.key) / (upper.key - lower.key)` with no guard
against a zero-width bracket, so `t` is NaN when the bracket keys are
equal. -/
def getInterpolatedSnapshot (snapshotReady : Bool) (snapshotData : List Snapshot) (progress : ℚ) : Option InterpRecord :=
  if !snapshotReady || snapshotData.isEmpty then none
  else
    match snapshotData with
    | [] => none
    | s0 :: rest =>
      let minRate := s0.corp_own_rate
      let maxRate := ((s0 :: rest).getLast (List.cons_ne_nil s0 rest)).corp_own_rate
      let targetRate := minRate + progress * (maxRate - minRate)
      let bracket := findBracket (s0 :: rest) targetRate
      let lower := bracket.1
      let upper := bracket.2
      let t := jsDiv (JsVal.num (targetRate - lower.corp_own_rate))
                     (JsVal.num (upper.corp_own_rate - lower.corp_own_rate))
      some { corp_own_rate := targetRate
             fields := lower.fields.map (fun kv =>
               (kv.1, jsAdd (JsVal.num kv.2)
                 (jsMul (jsSub (lookupField upper kv.1) (JsVal.num kv.2)) t))) }

/-- The clamp function the specification claims is applied to `progress`
before deriving the target key.  Modelled from the spec for comparison
with the source computation; the source itself never clamps. -/
def clampSpec (x lo hi : ℚ) : ℚ := max lo (min x hi)

/-- Planar vector (`THREE.Vector2` as used by the clustering code). -/
structure Vec2 where
  x : ℚ
  y : ℚ
deriving DecidableEq

/-- Vector addition. -/
def vadd (a b : Vec2) : Vec2 := ⟨a.x + b.x, a.y + b.y⟩

/-- Vector subtraction. -/
def vsub (a b : Vec2) : Vec2 := ⟨a.x - b.x, a.y - b.y⟩

/-- Scalar multiplication. -/
def vscale (c : ℚ) (a : Vec2) : Vec2 := ⟨c * a.x, c * a.y⟩

/-- Length method `THREE.Vector2.length`: the Euclidean norm.  The square root is an
oracle parameter `sqrtFn` standing for `Math.sqrt`, keeping the embedding
exact over ℚ; every theorem below holds for an arbitrary `sqrtFn`. -/
def vlen (sqrtFn : ℚ → ℚ) (a : Vec2) : ℚ := sqrtFn (a.x * a.x + a.y * a.y)

/-- Normalize method `THREE.Vector2.normalize`: divide by the length, or by 1 when the
length is zero (`divideScalar(this.length() || 1)`). -/
def vnormalize (sqrtFn : ℚ → ℚ) (a : Vec2) : Vec2 :=
  let len := vlen sqrtFn a
  vscale (1 / (if len = 0 then 1 else len)) a

/-- Per-agent state of `Person` (diversityViz.js lines 767-792),
restricted to the simulation-relevant fields.  The scene-graph handles
are rendering concerns; the mesh placement mirrors the `x`/`z` fields
kept here. -/
structure Person where
  index : ℕ
  name : String
  originalRace : ℕ
  targetRace : ℕ
  ageIndex : ℕ
  targetAgeIndex : ℕ
  educationLevel : ℕ
  targetEducationLevel : ℕ
  targetJobCategory : Option String
  x : ℚ
  z : ℚ
  velocity : Vec2
  position2D : Vec2
deriving DecidableEq

/-- Clustering configuration record (`this.config.clustering`). -/
structure ClusteringConfig where
  centerAttraction : ℚ
  minSeparation : ℚ
  attractionStrength : ℚ
  repulsionStrength : ℚ
  globalStrength : ℚ
  damping : ℚ
deriving DecidableEq

/-- The clustering configuration constructed in the source (lines 26-33). -/
def sourceClusteringConfig : ClusteringConfig :=
  { centerAttraction := 1/1000
    minSeparation := 2
    attractionStrength := 1/4
    repulsionStrength := 1/4
    globalStrength := 1/10
    damping := 11/20 }

/-- The cluster center configured in the source (line 47). -/
def sourceClusterCenter : Vec2 := ⟨12, 0⟩

/-- Force contribution of one `other` agent in the pairwise loop of
`Person.applyClusteringForce` (lines 830-846): hard separation repulsion
inside `minSeparation` (with the literal coefficient `0.1`), otherwise
attraction when the agents share the same original race and repulsion
when they do not, both scaled by `strength = progress * globalStrength`
and the inverse of `dist * dist + 0.01`. -/
def pairForce (sqrtFn : ℚ → ℚ) (cfg : ClusteringConfig) (strength : ℚ) (self other : Person) : Vec2 :=
  let delta := vsub other.position2D self.position2D
  let dist := vlen sqrtFn delta
  let distSq := dist * dist + 1/100
  let dir := vnormalize sqrtFn delta
  if dist < cfg.minSeparation then
    vscale (-(1/10 * (cfg.minSeparation - dist))) dir
  else if other.originalRace = self.originalRace then
    vscale (cfg.attractionStrength * strength / distSq) dir
  else
    vscale (-(cfg.repulsionStrength * strength / distSq)) dir

/-- Embedding of `Person.applyClusteringForce` (lines 823-864) for the
receiving agent: accumulate the pairwise terms over `others`, add the
center-seeking term, integrate velocity with damping
(`vel = (vel + force) * damping; pos += vel`), and mirror the new
position into `x`/`z` (the mesh placement reads exactly these values). -/
def applyClusteringForceSelf (sqrtFn : ℚ → ℚ) (cfg : ClusteringConfig) (center : Vec2)
    (progress : ℚ) (others : List Person) (self : Person) : Person :=
  let strength := progress * cfg.globalStrength
  let force := others.foldl (fun f o => vadd f (pairForce sqrtFn cfg strength self o)) ⟨0, 0⟩
  let force := vadd force (vscale cfg.centerAttraction (vsub center self.position2D))
  let vel := vscale cfg.damping (vadd self.velocity force)
  let pos := vadd self.position2D vel
  { self with velocity := vel, position2D := pos, x := pos.x, z := pos.y }

/-- One call `people[i].applyClusteringForce(progress)`: the pairwise
loop skips `other === this` (each `Person` is a distinct object,
identified here by its list position), and only the receiving agent is
written back. -/
def applyClusteringForceAt (sqrtFn : ℚ → ℚ) (cfg : ClusteringConfig) (center : Vec2)
    (progress : ℚ) (people : List Person) (i : ℕ) : List Person :=
  match people[i]? with
  | none => people
  | some self =>
      people.set i (applyClusteringForceSelf sqrtFn cfg center progress (people.eraseIdx i) self)

/-- The per-tick loop `this.people.forEach(p => p.applyClusteringForce(progress))`
(line 515): agents update in index order, each seeing the already
updated positions of earlier agents. -/
def clusteringTick (sqrtFn : ℚ → ℚ) (cfg : ClusteringConfig) (center : Vec2)
    (progress : ℚ) (people : List Person) : List Person :=
  (List.range people.length).foldl (applyClusteringForceAt sqrtFn cfg center progress) people

/-- Fixed transition threshold `this.index / this.viz.totalPeople` of
`Person.update` and `Person.getDisplayData` (lines 867 and 888). -/
def transitionThreshold (totalPeople : ℕ) (p : Person) : ℚ :=
  (p.index : ℚ) / (totalPeople : ℚ)

/-- Whether the agent displays its target state: the source comparison
`progress >= threshold`. -/
def displaysTarget (totalPeople : ℕ) (p : Person) (progress : ℚ) : Bool :=
  decide (transitionThreshold totalPeople p ≤ progress)

/-- Race index displayed by `Person.update` and `Person.getDisplayData`. -/
def displayedRace (totalPeople : ℕ) (p : Person) (progress : ℚ) : ℕ :=
  if displaysTarget totalPeople p progress then p.targetRace else p.originalRace

/-- Age index displayed by `Person.update` and `Person.getDisplayData`. -/
def displayedAgeIndex (totalPeople : ℕ) (p : Person) (progress : ℚ) : ℕ :=
  if displaysTarget totalPeople p progress then p.targetAgeIndex else p.ageIndex

/-- Education level displayed by `Person.update` and `Person.getDisplayData`. -/
def displayedEducationLevel (totalPeople : ℕ) (p : Person) (progress : ℚ) : ℕ :=
  if displaysTarget totalPeople p progress then p.targetEducationLevel else p.educationLevel

/-- Reading a field of the interpolated record in
`DiversityVisualizer.update`; a missing field is `undefined`, which the
sampler's arithmetic treats as NaN. -/
def recordField (r : InterpRecord) (k : String) : JsVal :=
  (r.fields.lookup k).getD JsVal.nan

/-- Mapping `raceIndexMap` of `DiversityVisualizer.update` (lines 706-712).  The
sampler only returns keys of the map it was given, so the catch-all arm
is unreachable in the modelled flow. -/
def raceIndexMap : String → ℕ
  | "White" => 0
  | "Asian" => 1
  | "Black" => 2
  | "Hispanic" => 3
  | "Other" => 3
  | _ => 0

/-- Mapping `ageIndexMap` of `DiversityVisualizer.update` (lines 723-728). -/
def ageIndexMap : String → ℕ
  | "Age_0_19" => 0
  | "Age_20_34" => 1
  | "Age_35_54" => 2
  | "Age_55_plus" => 2
  | _ => 0

/-- Mapping `eduIndexMap` of `DiversityVisualizer.update` (lines 739-744). -/
def eduIndexMap : String → ℕ
  | "Edu_Below_High_School" => 0
  | "Edu_High_School" => 1
  | "Edu_Some_College" => 1
  | "Edu_Bachelor_or_Above" => 2
  | _ => 0

/-- Per-agent re-sampling step of `DiversityVisualizer.update`
(lines 694-761): draw race, age, education and job labels for agent `i`
from the interpolated snapshot's weight maps and overwrite the agent's
target fields.  The sampler is total on these non-empty literal maps, so
the `getD` defaults are unreachable; the job label is stored verbatim. -/
def assignTargets (snap : InterpRecord) (i n : ℕ) (p : Person) : Person :=
  let raceChoice := getWeightedCategoryJs
    [("White", recordField snap "White"), ("Asian", recordField snap "Asian"),
     ("Black", recordField snap "Black"), ("Hispanic", recordField snap "Hispanic"),
     ("Other", recordField snap "Other")] i n
  let ageChoice := getWeightedCategoryJs
    [("Age_0_19", recordField snap "Age_0_19"), ("Age_20_34", recordField snap "Age_20_34"),
     ("Age_35_54", recordField snap "Age_35_54"),
     ("Age_55_plus", recordField snap "Age_55_plus")] i n
  let eduChoice := getWeightedCategoryJs
    [("Edu_Below_High_School", recordField snap "Edu_Below_High_School"),
     ("Edu_High_School", recordField snap "Edu_High_School"),
     ("Edu_Some_College", recordField snap "Edu_Some_College"),
     ("Edu_Bachelor_or_Above", recordField snap "Edu_Bachelor_or_Above")] i n
  let jobChoice := getWeightedCategoryJs
    [("Job_Technology", recordField snap "Job_Technology"),
     ("Job_Corporate", recordField snap "Job_Corporate"),
     ("Job_Healthcare", recordField snap "Job_Healthcare"),
     ("Job_Construction", recordField snap "Job_Construction"),
     ("Job_Hospitality", recordField snap "Job_Hospitality"),
     ("Job_Repair_Tech", recordField snap "Job_Repair_Tech")] i n
  { p with
    targetRace := (raceChoice.map raceIndexMap).getD p.targetRace
    targetAgeIndex := (ageChoice.map ageIndexMap).getD p.targetAgeIndex
    targetEducationLevel := (eduChoice.map eduIndexMap).getD p.targetEducationLevel
    targetJobCategory := jobChoice }

/-- The re-sampling loop of `DiversityVisualizer.update` over the whole
population, with `totalPeople = this.people.length`. -/
def updateAssignAll (snap : InterpRecord) (people : List Person) : List Person :=
  people.mapIdx (fun i p => assignTargets snap i people.length p)

/-- Throttle state of the scrub recompute in `_animate`. -/
structure ScrubState where
  lastUpdateTime : ℚ
  lastScrubProgress : Option ℚ
deriving DecidableEq

/-- The recompute interval in milliseconds: the constructor assigns 500
and then overwrites it with the final value 100 (lines 10 and 22). -/
def updateInterval : ℚ := 100

/-- Condition `Math.abs(progress - (this.lastScrubProgress ?? -1)) > 0.001`
(line 535). -/
def progressChanged (st : ScrubState) (progress : ℚ) : Bool :=
  decide (|progress - st.lastScrubProgress.getD (-1)| > 1/1000)

/-- Guard of the recompute branch (line 537):
`now - this.lastUpdateTime > this.updateInterval && progressChanged`. -/
def scrubFired (st : ScrubState) (now progress : ℚ) : Bool :=
  decide (now - st.lastUpdateTime > updateInterval) && progressChanged st progress

/-- Effect of one corridor tick on the throttle state (lines 537-541):
when the guard holds, `update(progress)` runs and the state records the
recompute time and progress; otherwise both fields keep their values. -/
def scrubStep (st : ScrubState) (now progress : ℚ) : ScrubState :=
  if scrubFired st now progress then
    { lastUpdateTime := now, lastScrubProgress := some progress }
  else st

/-- Multiplying any JS value by NaN yields NaN. -/
theorem jsMul_nan_right (x : JsVal) : jsMul x JsVal.nan = JsVal.nan := by
  cases x <;> rfl

/-- Adding NaN to any JS value yields NaN. -/
theorem jsAdd_nan_right (x : JsVal) : jsAdd x JsVal.nan = JsVal.nan := by
  cases x <;> rfl

/-- Shared key computation: for a loaded, non-empty dataset the ordering
key of the interpolated record is exactly
`minKey + progress * (maxKey - minKey)` with the raw progress value. -/
theorem interp_corp_key (snaps : List Snapshot) (s0 sl : Snapshot) (p : ℚ)
    (h0 : snaps.head? = some s0) (hl : snaps.getLast? = some sl) :
    (getInterpolatedSnapshot true snaps p).map InterpRecord.corp_own_rate =
      some (s0.corp_own_rate + p * (sl.corp_own_rate - s0.corp_own_rate)) := by
  cases snaps with
  | nil => simp at h0
  | cons a rest =>
    have ha : a = s0 := by simpa using h0
    subst ha
    have hgl : (a :: rest).getLast (List.cons_ne_nil a rest) = sl := by
      rw [List.getLast?_eq_getLast_of_ne_nil (List.cons_ne_nil a rest)] at hl
      simpa using hl
    simp only [getInterpolatedSnapshot, hgl, Bool.not_true, List.isEmpty_cons,
      Bool.false_or, Bool.false_eq_true, if_false, Option.map_some']

/-- Helper: in a list sorted by `≤`, the head is at most the last
element. -/
theorem sorted_head?_le_getLast? :
    ∀ (l : List ℚ), l.Sorted (· ≤ ·) → ∀ a b, l.head? = some a → l.getLast? = some b → a ≤ b := by
  intro l
  induction l with
  | nil => intro _ a b ha _; simp at ha
  | cons x xs ih =>
    intro hs a b ha hb
    have hax : x = a := by simpa using ha
    cases hxs : xs with
    | nil =>
      subst hxs
      simp only [List.getLast?_singleton, Option.some.injEq] at hb
      rw [← hax, hb]
    | cons y ys =>
      subst hxs
      rw [List.getLast?_cons_cons] at hb
      have h1 : x ≤ y := (List.sorted_cons.mp hs).1 y (by simp)
      have h2 : y ≤ b := ih (List.sorted_cons.mp hs).2 y b (by simp) hb
      linarith [hax]

/-- C2 counterexample: for the one-record dataset
`[{corp_own_rate: 5, White: 1}]` and progress `1/2`, the interpolation
produces `t = 0/0 = NaN` (there is no division-by-zero guard) and the
`White` field of the returned record is NaN, not the original `1` — the
record is not returned unchanged. -/
theorem c2_counterexample :
    getInterpolatedSnapshot true [⟨5, [("White", 1)]⟩] (1/2) =
      some ⟨5, [("White", JsVal.nan)]⟩ ∧ JsVal.nan ≠ JsVal.num 1 := by
  refine ⟨?_, by simp⟩
  norm_num [getInterpolatedSnapshot, findBracket, adjacentPairs, List.headI, List.getLastI,
    lookupField, jsDiv, jsSub, jsMul, jsAdd]

/-- C2 (amended): `getInterpolatedSnapshot` has no guard for a zero-width
bracket.  For a dataset with exactly one record the bracket collapses to
that record, `t = 0/0 = NaN`, and the returned record keeps the ordering
key but every other field is NaN, for every progress value. -/
theorem c2_single_record_all_nan (s : Snapshot) (p : ℚ) :
    getInterpolatedSnapshot true [s] p =
      some ⟨s.corp_own_rate, s.fields.map (fun kv => (kv.1, JsVal.nan))⟩ := by
  simp [getInterpolatedSnapshot, findBracket, adjacentPairs, List.headI, List.getLastI,
    jsDiv, jsMul_nan_right, jsAdd_nan_right]

/-- C3 counterexample: for the dataset with keys `0` and `1` and the
out-of-range progress `2`, the source computes target key `2` (linear
extrapolation on the raw progress), while the claimed clamped formula
`minKey + clamp(progress,0,1) * (maxKey - minKey)` gives `1`. -/
theorem c3_counterexample :
    (getInterpolatedSnapshot true [⟨0, []⟩, ⟨1, []⟩] 2).map InterpRecord.corp_own_rate =
      some 2 ∧
    (0 : ℚ) + clampSpec 2 0 1 * (1 - 0) = 1 ∧ (2 : ℚ) ≠ 1 := by
  refine ⟨?_, by norm_num [clampSpec], by norm_num⟩
  norm_num [getInterpolatedSnapshot, findBracket, adjacentPairs, List.headI, List.getLastI,
    jsDiv]

/-- C3 (amended): for every loaded non-empty dataset and every progress
value, the target ordering key is `minKey + progress * (maxKey - minKey)`
computed on the raw progress input, with no clamping — progress values
outside `[0, 1]` extrapolate linearly beyond the key range. -/
theorem c3_unclamped_target_key (snaps : List Snapshot) (s0 sl : Snapshot) (p : ℚ)
    (h0 : snaps.head? = some s0) (hl : snaps.getLast? = some sl) :
    (getInterpolatedSnapshot true snaps p).map InterpRecord.corp_own_rate =
      some (s0.corp_own_rate + p * (sl.corp_own_rate - s0.corp_own_rate)) :=
  interp_corp_key snaps s0 sl p h0 hl

/-- Witness for `c3_unclamped_target_key` at the two-record dataset with
keys `0` and `1` and progress `2`. -/
theorem c3_unclamped_target_key_witness :
    (([⟨0, []⟩, ⟨1, []⟩] : List Snapshot).head? = some ⟨0, []⟩ ∧
      ([⟨0, []⟩, ⟨1, []⟩] : List Snapshot).getLast? = some ⟨1, []⟩) ∧
    (getInterpolatedSnapshot true [⟨0, []⟩, ⟨1, []⟩] 2).map InterpRecord.corp_own_rate =
      some ((Snapshot.mk 0 []).corp_own_rate +
        2 * ((Snapshot.mk 1 []).corp_own_rate - (Snapshot.mk 0 []).corp_own_rate)) :=
  ⟨⟨by simp, by simp⟩,
    c3_unclamped_target_key [⟨0, []⟩, ⟨1, []⟩] ⟨0, []⟩ ⟨1, []⟩ 2 (by simp) (by simp)⟩

/-- C7: for a dataset sorted ascending by ordering key, the ordering key
of the interpolated record is monotonically non-decreasing in progress on
`[0, 1]`, equals the minimum key at progress `0`, and equals the maximum
key at progress `1`. -/
theorem c7_key_monotone_bounds (snaps : List Snapshot) (s0 sl : Snapshot) (p q : ℚ)
    (h0 : snaps.head? = some s0) (hl : snaps.getLast? = some sl)
    (hsort : (snaps.map Snapshot.corp_own_rate).Sorted (· ≤ ·))
    (hp0 : 0 ≤ p) (hpq : p ≤ q) (hq1 : q ≤ 1) :
    (∀ kp kq, (getInterpolatedSnapshot true snaps p).map InterpRecord.corp_own_rate = some kp →
      (getInterpolatedSnapshot true snaps q).map InterpRecord.corp_own_rate = some kq →
      kp ≤ kq) ∧
    (getInterpolatedSnapshot true snaps 0).map InterpRecord.corp_own_rate =
      some s0.corp_own_rate ∧
    (getInterpolatedSnapshot true snaps 1).map InterpRecord.corp_own_rate =
      some sl.corp_own_rate := by
  have hmm : s0.corp_own_rate ≤ sl.corp_own_rate := by
    refine sorted_head?_le_getLast? _ hsort _ _ ?_ ?_
    · rw [List.head?_map, h0]; rfl
    · rw [List.getLast?_map, hl]; rfl
  refine ⟨?_, ?_, ?_⟩
  · intro kp kq hkp hkq
    rw [interp_corp_key snaps s0 sl p h0 hl] at hkp
    rw [interp_corp_key snaps s0 sl q h0 hl] at hkq
    have hkp' := Option.some.inj hkp
    have hkq' := Option.some.inj hkq
    have hd : (0 : ℚ) ≤ sl.corp_own_rate - s0.corp_own_rate := by linarith
    nlinarith [mul_le_mul_of_nonneg_right hpq hd]
  · have h := interp_corp_key snaps s0 sl 0 h0 hl
    rw [h]
    norm_num
  · have h := interp_corp_key snaps s0 sl 1 h0 hl
    rw [h]
    congr 1
    ring

/-- Witness for `c7_key_monotone_bounds` at the dataset with keys `0`
and `2`, progress pair `1/4 ≤ 1/2`. -/
theorem c7_key_monotone_bounds_witness :
    ((0 : ℚ) ≤ 1/4 ∧ (1/4 : ℚ) ≤ 1/2 ∧ (1/2 : ℚ) ≤ 1 ∧
      (([⟨0, []⟩, ⟨2, []⟩] : List Snapshot).map Snapshot.corp_own_rate).Sorted (· ≤ ·)) ∧
    (getInterpolatedSnapshot true [⟨0, []⟩, ⟨2, []⟩] 0).map InterpRecord.corp_own_rate =
      some (Snapshot.mk 0 []).corp_own_rate :=
  ⟨⟨by norm_num, by norm_num, by norm_num, by norm_num [List.sorted_cons]⟩,
    (c7_key_monotone_bounds [⟨0, []⟩, ⟨2, []⟩] ⟨0, []⟩ ⟨2, []⟩ (1/4) (1/2)
      (by simp) (by simp) (by norm_num [List.sorted_cons]) (by norm_num) (by norm_num)
      (by norm_num)).2.1⟩

/-- Helper: JS addition folded over finite numbers is exact rational
summation. -/
theorem foldl_jsAdd_num (a : ℚ) (l : List ℚ) :
    (l.map JsVal.num).foldl jsAdd (JsVal.num a) = JsVal.num (l.foldl (· + ·) a) := by
  induction l generalizing a with
  | nil => rfl
  | cons x xs ih => simp [jsAdd, ih]

/-- Helper: folding addition over a list of zeros returns the start
value. -/
theorem foldl_add_zero (a : ℚ) : ∀ (l : List ℚ), (∀ x ∈ l, x = 0) → l.foldl (· + ·) a = a := by
  intro l
  induction l generalizing a with
  | nil => intro _; rfl
  | cons x xs ih =>
    intro hz
    have hx : x = 0 := hz x (by simp)
    simp only [List.foldl_cons, hx, add_zero]
    exact ih a (fun y hy => hz y (by simp [hy]))

/-- Helper: with an all-zero weight map the computed total is `0`, each
per-label division is `0/0 = NaN`, and so every cumulative threshold is
NaN. -/
theorem cumThresholds_allzero_nan :
    ∀ (l : List (String × ℚ)) (s : JsVal), (∀ kv ∈ l, kv.2 = 0) →
      (s = JsVal.num 0 ∨ s = JsVal.nan) →
      cumThresholds (JsVal.num 0) s (l.map (fun kv => (kv.1, JsVal.num kv.2))) =
        l.map (fun kv => (kv.1, JsVal.nan)) := by
  intro l
  induction l with
  | nil => intro s _ _; rfl
  | cons kv rest ih =>
    intro s hz hs
    have hk : kv.2 = 0 := hz kv (by simp)
    have hsum : jsAdd s (jsDiv (JsVal.num kv.2) (JsVal.num 0)) = JsVal.nan := by
      rw [hk]
      have : jsDiv (JsVal.num 0) (JsVal.num 0) = JsVal.nan := by simp [jsDiv]
      rw [this]
      exact jsAdd_nan_right s
    simp only [List.map_cons, cumThresholds, hsum]
    rw [ih JsVal.nan (fun x hx => hz x (by simp [hx])) (Or.inr rfl)]

/-- C4 counterexample: with the all-zero weight map `{A:0, B:0}` the
sampler returns the LAST declared label `B`, not the first label `A`
claimed by the spec; and with an empty weight map it crashes
(`cumulative[-1].key` on `undefined`, modelled as `none`) instead of
returning a label. -/
theorem c4_counterexample :
    getWeightedCategory [("A", 0), ("B", 0)] 0 1 = some "B" ∧
    getWeightedCategory ([] : List (String × ℚ)) 0 1 = none := by
  constructor
  · norm_num [getWeightedCategory, getWeightedCategoryJs, selectCategory, cumThresholds,
      jsAdd, jsDiv, jsLe, List.find?]
  · rfl

/-- C4 (amended): `getWeightedCategory` performs no weight validation at
all.  Negative weights are folded into the cumulative thresholds as-is;
an empty weight map is an error (TypeError), not a fallback; and when
every weight is `0` the thresholds are all NaN (`0/0`), every comparison
with NaN is false, and the final fallback returns the LAST declared
label. -/
theorem c4_all_zero_returns_last (ws : List (String × ℚ)) (i n : ℕ) (hne : ws ≠ [])
    (hz : ∀ kv ∈ ws, kv.2 = 0) :
    getWeightedCategory ws i n = some (ws.getLast hne).1 := by
  unfold getWeightedCategory getWeightedCategoryJs
  have hmap : (ws.map (fun kv => (kv.1, JsVal.num kv.2))).map Prod.snd =
      (ws.map Prod.snd).map JsVal.num := by
    simp [List.map_map]
  have htot : ((ws.map (fun kv => (kv.1, JsVal.num kv.2))).map Prod.snd).foldl jsAdd
      (JsVal.num 0) = JsVal.num 0 := by
    rw [hmap, foldl_jsAdd_num]
    congr 1
    refine foldl_add_zero 0 (ws.map Prod.snd) ?_
    intro x hx
    obtain ⟨kv, hkv, rfl⟩ := List.mem_map.mp hx
    exact hz kv hkv
  simp only [htot, cumThresholds_allzero_nan ws (JsVal.num 0) hz (Or.inl rfl)]
  have hfind : (ws.map (fun kv => (kv.1, JsVal.nan))).find?
      (fun e => jsLe (JsVal.num (((i : ℚ) + 1) / ((n : ℚ) + 1))) e.2) = none := by
    refine List.find?_eq_none.mpr ?_
    intro x hx
    obtain ⟨kv, _, rfl⟩ := List.mem_map.mp hx
    simp [jsLe]
  simp only [selectCategory, hfind, List.getLast?_map,
    List.getLast?_eq_getLast_of_ne_nil hne, Option.map_map, Option.map_some']

/-- Witness for `c4_all_zero_returns_last` at the weight map
`{A:0, B:0}` with agent 0 of 1. -/
theorem c4_all_zero_returns_last_witness :
    (([("A", (0 : ℚ)), ("B", (0 : ℚ))] : List (String × ℚ)) ≠ []) ∧
    getWeightedCategory [("A", (0 : ℚ)), ("B", (0 : ℚ))] 0 1 =
      some (([("A", (0 : ℚ)), ("B", (0 : ℚ))] : List (String × ℚ)).getLast (by simp)).1 :=
  ⟨by simp,
    c4_all_zero_returns_last [("A", 0), ("B", 0)] 0 1 (by simp) (by norm_num)⟩

/-- Helper: the inclusive comparison against a fixed threshold is
antitone in the probe value. -/
theorem jsLe_num_mono (u v : ℚ) (h : u ≤ v) (c : JsVal) :
    jsLe (JsVal.num v) c = true → jsLe (JsVal.num u) c = true := by
  cases c with
  | num q =>
    intro hv
    simp only [jsLe, decide_eq_true_eq] at hv ⊢
    linarith
  | nan => intro hv; simp [jsLe] at hv
  | inf => intro _; rfl
  | ninf => intro hv; simp [jsLe] at hv

/-- Helper: the index of the first threshold accepting the probe is
monotone in the probe value. -/
theorem findIdx_jsLe_mono (u v : ℚ) (h : u ≤ v) :
    ∀ (cum : List JsVal),
      cum.findIdx (fun c => jsLe (JsVal.num u) c) ≤
        cum.findIdx (fun c => jsLe (JsVal.num v) c) := by
  intro cum
  induction cum with
  | nil => simp
  | cons c cs ih =>
    by_cases hu : jsLe (JsVal.num u) c = true
    · simp [List.findIdx_cons, hu]
    · have hv : jsLe (JsVal.num v) c = false := by
        by_contra hvv
        exact hu (jsLe_num_mono u v h c (by simpa using hvv))
      have hu' : jsLe (JsVal.num u) c = false := by simpa using hu
      simp [List.findIdx_cons, hu', hv]
      exact ih

/-- Helper: the selected label position is monotone in the probe value. -/
theorem pickIdx_mono (u v : ℚ) (h : u ≤ v) (cum : List JsVal) :
    pickIdx (JsVal.num u) cum ≤ pickIdx (JsVal.num v) cum := by
  unfold pickIdx
  have hf := findIdx_jsLe_mono u v h cum
  by_cases h1 : cum.findIdx (fun c => jsLe (JsVal.num u) c) < cum.length
  · by_cases h2 : cum.findIdx (fun c => jsLe (JsVal.num v) c) < cum.length
    · simpa [h1, h2] using hf
    · simp only [h1, h2, if_true, if_false]
      omega
  · have h2 : ¬ cum.findIdx (fun c => jsLe (JsVal.num v) c) < cum.length := by omega
    simp [h1, h2]

/-- Helper: dropping a rejected head entry shifts selection to the tail. -/
theorem selectCategory_cons_false (u : JsVal) (c d : String × JsVal)
    (ds : List (String × JsVal)) (hc : jsLe u c.2 = false) :
    selectCategory u (c :: d :: ds) = selectCategory u (d :: ds) := by
  have hfind : List.find? (fun e => jsLe u e.2) (c :: d :: ds) =
      List.find? (fun e => jsLe u e.2) (d :: ds) :=
    List.find?_cons_of_neg _ (by simp [hc])
  simp only [selectCategory, hfind, List.getLast?_cons_cons]

/-- Helper: dropping a rejected head threshold shifts the selected
position by one. -/
theorem pickIdx_cons_false (u : JsVal) (c : JsVal) (cs : List JsVal)
    (hc : jsLe u c = false) (hne : cs ≠ []) :
    pickIdx u (c :: cs) = pickIdx u cs + 1 := by
  have hlen : cs.length ≠ 0 := fun hl => hne (List.length_eq_zero.mp hl)
  have hidx : (c :: cs).findIdx (fun x => jsLe u x) = cs.findIdx (fun x => jsLe u x) + 1 := by
    rw [List.findIdx_cons]
    simp [hc]
  simp only [pickIdx, hidx, List.length_cons]
  by_cases h1 : cs.findIdx (fun x => jsLe u x) < cs.length
  · rw [if_pos (by omega : cs.findIdx (fun x => jsLe u x) + 1 < cs.length + 1), if_pos h1]
  · rw [if_neg (by omega : ¬ cs.findIdx (fun x => jsLe u x) + 1 < cs.length + 1), if_neg h1]
    omega

/-- Helper: the label chosen by the selection loop is the label at the
`pickIdx` position of the cumulative list. -/
theorem selectCategory_eq_pickIdx (u : ℚ) :
    ∀ (cum : List (String × JsVal)), cum ≠ [] →
      selectCategory (JsVal.num u) cum =
        (cum[pickIdx (JsVal.num u) (cum.map Prod.snd)]?).map Prod.fst := by
  intro cum
  induction cum with
  | nil => intro h; exact absurd rfl h
  | cons c cs ih =>
    intro _
    by_cases hc : jsLe (JsVal.num u) c.2 = true
    · have hfind : List.find? (fun e => jsLe (JsVal.num u) e.2) (c :: cs) = some c :=
        List.find?_cons_of_pos _ (by simp [hc])
      have hidx : pickIdx (JsVal.num u) (c.2 :: cs.map Prod.snd) = 0 := by
        simp only [pickIdx, List.findIdx_cons, hc, cond_true]
        simp
      simp [selectCategory, hfind, hidx]
    · have hc' : jsLe (JsVal.num u) c.2 = false := by simpa using hc
      cases hcs : cs with
      | nil =>
        subst hcs
        have hfind : List.find? (fun e => jsLe (JsVal.num u) e.2) [c] = none :=
          List.find?_eq_none.mpr (by simp [hc'])
        have hidx : pickIdx (JsVal.num u) [c.2] = 0 := by
          simp only [pickIdx, List.findIdx_cons, hc', cond_false]
          simp [List.findIdx_nil]
        simp [selectCategory, hfind, hidx]
      | cons d ds =>
        subst hcs
        rw [selectCategory_cons_false _ _ _ _ hc', ih (by simp)]
        have hpick : pickIdx (JsVal.num u) ((c :: d :: ds).map Prod.snd) =
            pickIdx (JsVal.num u) ((d :: ds).map Prod.snd) + 1 := by
          rw [List.map_cons]
          exact pickIdx_cons_false _ _ _ hc' (by simp)
        rw [hpick, List.getElem?_cons_succ]

/-- Helper: the cumulative-threshold list keeps the labels of the weight
map, in order. -/
theorem cumThresholds_map_fst (t : JsVal) :
    ∀ (s : JsVal) (l : List (String × JsVal)),
      (cumThresholds t s l).map Prod.fst = l.map Prod.fst := by
  intro s l
  induction l generalizing s with
  | nil => rfl
  | cons kv rest ih => simp [cumThresholds, ih]

/-- C8: for a fixed weight map with positive total weight and fixed
`totalAgents`, the declaration-order position of the label returned by
`getWeightedCategory` is non-decreasing in `agentIndex` (so each label
occupies a contiguous index range), and the returned label is the weight
map entry at that position. -/
theorem c8_monotone_sweep (ws : List (String × ℚ)) (n i j : ℕ) (hne : ws ≠ [])
    (htot : 0 < (ws.map Prod.snd).sum) (hij : i ≤ j) :
    sampleIdx ws i n ≤ sampleIdx ws j n ∧
    getWeightedCategory ws i n = (ws[sampleIdx ws i n]?).map Prod.fst := by
  have hn : (0 : ℚ) < (n : ℚ) + 1 := by positivity
  have hu : ((i : ℚ) + 1) / ((n : ℚ) + 1) ≤ ((j : ℚ) + 1) / ((n : ℚ) + 1) := by
    have hnum : (i : ℚ) + 1 ≤ (j : ℚ) + 1 := by
      have : (i : ℚ) ≤ (j : ℚ) := by exact_mod_cast hij
      linarith
    exact (div_le_div_iff_of_pos_right hn).mpr hnum
  constructor
  · unfold sampleIdx
    exact pickIdx_mono _ _ hu _
  · unfold getWeightedCategory getWeightedCategoryJs sampleIdx
    have hcum_fst : (cumThresholds
        (((ws.map (fun kv => (kv.1, JsVal.num kv.2))).map Prod.snd).foldl jsAdd (JsVal.num 0))
        (JsVal.num 0) (ws.map (fun kv => (kv.1, JsVal.num kv.2)))).map Prod.fst =
        ws.map Prod.fst := by
      rw [cumThresholds_map_fst, List.map_map]
      rfl
    have hcne : cumThresholds
        (((ws.map (fun kv => (kv.1, JsVal.num kv.2))).map Prod.snd).foldl jsAdd (JsVal.num 0))
        (JsVal.num 0) (ws.map (fun kv => (kv.1, JsVal.num kv.2))) ≠ [] := by
      intro hc
      have h0 := congrArg (List.map Prod.fst) hc
      rw [hcum_fst] at h0
      simp only [List.map_nil, List.map_eq_nil_iff] at h0
      exact hne h0
    simp only [selectCategory_eq_pickIdx _ _ hcne]
    generalize pickIdx (JsVal.num (((i : ℚ) + 1) / ((n : ℚ) + 1))) _ = k
    calc ((cumThresholds _ (JsVal.num 0) (ws.map (fun kv => (kv.1, JsVal.num kv.2))))[k]?).map
          Prod.fst
        = ((cumThresholds _ (JsVal.num 0)
            (ws.map (fun kv => (kv.1, JsVal.num kv.2)))).map Prod.fst)[k]? := by
          rw [List.getElem?_map]
      _ = (ws.map Prod.fst)[k]? := by rw [hcum_fst]
      _ = (ws[k]?).map Prod.fst := by rw [List.getElem?_map]

/-- Witness for `c8_monotone_sweep` at the weight map `{A:1, B:1}` with
`totalAgents = 3` and agent indices `0 ≤ 2`. -/
theorem c8_monotone_sweep_witness :
    ((0 : ℚ) < (([("A", (1 : ℚ)), ("B", (1 : ℚ))] : List (String × ℚ)).map Prod.snd).sum ∧
      (0 : ℕ) ≤ 2) ∧
    sampleIdx [("A", (1 : ℚ)), ("B", (1 : ℚ))] 0 3 ≤
      sampleIdx [("A", (1 : ℚ)), ("B", (1 : ℚ))] 2 3 :=
  ⟨⟨by norm_num, by norm_num⟩,
    (c8_monotone_sweep [("A", 1), ("B", 1)] 3 0 2 (by simp) (by norm_num) (by norm_num)).1⟩

/-- C9: `getWeightedCategory({A:1, B:1}, agentIndex = 0, totalAgents = 1)`
returns `A`: the stable pseudo-random value `u = (0+1)/(1+1) = 1/2` equals
A's cumulative threshold `1/2` exactly, and the inclusive comparison
`u <= threshold` selects `A` at this boundary. -/
theorem c9_boundary_returns_A :
    getWeightedCategory [("A", 1), ("B", 1)] 0 1 = some "A" := by
  norm_num [getWeightedCategory, getWeightedCategoryJs, selectCategory, cumThresholds,
    jsAdd, jsDiv, jsLe, List.find?]

/-- C1 counterexample: with `totalAgents = 10` and `progress = 0.35` the
claim says agents 3-9 display their original state, but agent 3 has
threshold `3/10 = 0.3 ≤ 0.35` and the source's inclusive comparison
`progress >= threshold` makes it display the TARGET state (here target
race 1, not original race 0). -/
theorem c1_counterexample :
    displaysTarget 10 (Person.mk 3 "p" 0 1 0 0 0 0 none 0 0 ⟨0, 0⟩ ⟨0, 0⟩) (35/100) = true ∧
    displayedRace 10 (Person.mk 3 "p" 0 1 0 0 0 0 none 0 0 ⟨0, 0⟩ ⟨0, 0⟩) (35/100) = 1 ∧
    (1 : ℕ) ≠ 0 := by
  have ht : displaysTarget 10 (Person.mk 3 "p" 0 1 0 0 0 0 none 0 0 ⟨0, 0⟩ ⟨0, 0⟩)
      (35/100) = true := by
    simp only [displaysTarget, transitionThreshold, decide_eq_true_eq]
    norm_num
  exact ⟨ht, by simp [displayedRace, ht], by norm_num⟩

/-- C1 (amended): at `progress = k/N` exactly the agents with
`index ≤ k` display their target category indices (the source comparison
`progress >= threshold` is inclusive, so the agent whose threshold
equals the progress value has already switched) and the remaining agents
display their original indices.  In the `totalAgents = 10`,
`progress = 0.35` scenario this means agents 0-3 show target state and
agents 4-9 show original state. -/
theorem c1_threshold_staggering (N k : ℕ) (p : Person) (hN : 0 < N) :
    (displaysTarget N p ((k : ℚ) / (N : ℚ)) = true ↔ p.index ≤ k) ∧
    displayedRace N p ((k : ℚ) / (N : ℚ)) =
      (if p.index ≤ k then p.targetRace else p.originalRace) ∧
    displayedAgeIndex N p ((k : ℚ) / (N : ℚ)) =
      (if p.index ≤ k then p.targetAgeIndex else p.ageIndex) ∧
    displayedEducationLevel N p ((k : ℚ) / (N : ℚ)) =
      (if p.index ≤ k then p.targetEducationLevel else p.educationLevel) := by
  have hNQ : (0 : ℚ) < (N : ℚ) := by exact_mod_cast hN
  have hiff : displaysTarget N p ((k : ℚ) / (N : ℚ)) = true ↔ p.index ≤ k := by
    simp only [displaysTarget, transitionThreshold, decide_eq_true_eq]
    rw [div_le_div_iff_of_pos_right hNQ]
    exact_mod_cast Iff.rfl
  refine ⟨hiff, ?_, ?_, ?_⟩ <;>
  · by_cases h : p.index ≤ k
    · have ht := hiff.mpr h
      simp [displayedRace, displayedAgeIndex, displayedEducationLevel, ht, h]
    · have ht : displaysTarget N p ((k : ℚ) / (N : ℚ)) = false := by
        rcases Bool.eq_false_or_eq_true (displaysTarget N p ((k : ℚ) / (N : ℚ))) with hb | hb
        · exact absurd (hiff.mp hb) h
        · exact hb
      simp [displayedRace, displayedAgeIndex, displayedEducationLevel, ht, h]

/-- Witness for `c1_threshold_staggering` at `N = 10`, `k = 3`, and an
agent with index 3. -/
theorem c1_threshold_staggering_witness :
    (0 < 10) ∧
    (displaysTarget 10 (Person.mk 3 "p" 0 1 0 0 0 0 none 0 0 ⟨0, 0⟩ ⟨0, 0⟩)
        (((3 : ℕ) : ℚ) / ((10 : ℕ) : ℚ)) = true ↔
      (Person.mk 3 "p" 0 1 0 0 0 0 none 0 0 ⟨0, 0⟩ ⟨0, 0⟩).index ≤ 3) :=
  ⟨by norm_num,
    (c1_threshold_staggering 10 3 (Person.mk 3 "p" 0 1 0 0 0 0 none 0 0 ⟨0, 0⟩ ⟨0, 0⟩)
      (by norm_num)).1⟩

/-- Helper: setting a list position to a value with the same image under
`f` leaves the `f`-image of the list unchanged. -/
theorem map_set_same (f : Person → ℕ) :
    ∀ (l : List Person) (i : ℕ) (a b : Person),
      l[i]? = some a → f b = f a → (l.set i b).map f = l.map f := by
  intro l
  induction l with
  | nil => intro i a b h _; simp at h
  | cons x xs ih =>
    intro i a b h hf
    cases i with
    | zero =>
      simp only [List.getElem?_cons_zero, Option.some.injEq] at h
      subst h
      simp [List.set_cons_zero, hf]
    | succ n =>
      simp only [List.getElem?_cons_succ] at h
      simp only [List.set_cons_succ, List.map_cons]
      rw [ih n a b h hf]

/-- Helper: one force application leaves every agent's original race
unchanged. -/
theorem applyAt_map_originalRace (sqrtFn : ℚ → ℚ) (cfg : ClusteringConfig) (center : Vec2)
    (progress : ℚ) (people : List Person) (i : ℕ) :
    (applyClusteringForceAt sqrtFn cfg center progress people i).map Person.originalRace =
      people.map Person.originalRace := by
  cases hpi : people[i]? with
  | none => simp [applyClusteringForceAt, hpi]
  | some self =>
    simp only [applyClusteringForceAt, hpi]
    exact map_set_same Person.originalRace people i self _ hpi rfl

/-- Helper: the whole per-tick force loop leaves every agent's original
race unchanged. -/
theorem tick_map_originalRace (sqrtFn : ℚ → ℚ) (cfg : ClusteringConfig) (center : Vec2)
    (progress : ℚ) (people : List Person) :
    (clusteringTick sqrtFn cfg center progress people).map Person.originalRace =
      people.map Person.originalRace := by
  unfold clusteringTick
  generalize List.range people.length = idxs
  induction idxs generalizing people with
  | nil => rfl
  | cons i rest ih =>
    rw [List.foldl_cons]
    rw [ih (applyClusteringForceAt sqrtFn cfg center progress people i)]
    exact applyAt_map_originalRace sqrtFn cfg center progress people i

/-- Helper: an index-aware population map that preserves original race
pointwise preserves the list of original races. -/
theorem mapIdx_map_originalRace :
    ∀ (people : List Person) (f : ℕ → Person → Person),
      (∀ i p, (f i p).originalRace = p.originalRace) →
      (people.mapIdx f).map Person.originalRace = people.map Person.originalRace := by
  intro people
  induction people with
  | nil => intro f _; rfl
  | cons p ps ih =>
    intro f hf
    rw [List.mapIdx_cons, List.map_cons, List.map_cons, hf 0 p]
    rw [ih (fun i => f (i + 1)) (fun i q => hf (i + 1) q)]

/-- C5: the pairwise attraction/repulsion decision of
`applyClusteringForce` depends only on the two agents' positions and
ORIGINAL races (changing target/displayed categories cannot change the
force), and no engine operation — a single force application, the whole
per-tick force loop, or the progress-driven per-agent re-sampling of
`update` — modifies any agent's `originalRace`, so clustering affinity
stays fixed for the simulation's lifetime even after displayed
categories have transitioned. -/
theorem c5_clustering_uses_fixed_original_race
    (sqrtFn : ℚ → ℚ) (cfg : ClusteringConfig) (center : Vec2) (strength progress : ℚ)
    (a b a2 b2 : Person) (snap : InterpRecord) (people : List Person) (i : ℕ)
    (hpa : a.position2D = a2.position2D) (hra : a.originalRace = a2.originalRace)
    (hpb : b.position2D = b2.position2D) (hrb : b.originalRace = b2.originalRace) :
    pairForce sqrtFn cfg strength a b = pairForce sqrtFn cfg strength a2 b2 ∧
    (applyClusteringForceAt sqrtFn cfg center progress people i).map Person.originalRace =
      people.map Person.originalRace ∧
    (clusteringTick sqrtFn cfg center progress people).map Person.originalRace =
      people.map Person.originalRace ∧
    (updateAssignAll snap people).map Person.originalRace =
      people.map Person.originalRace := by
  refine ⟨?_, applyAt_map_originalRace sqrtFn cfg center progress people i,
    tick_map_originalRace sqrtFn cfg center progress people, ?_⟩
  · unfold pairForce
    rw [hpa, hra, hpb, hrb]
  · exact mapIdx_map_originalRace people _ (fun j q => rfl)

/-- Witness for `c5_clustering_uses_fixed_original_race`: two concrete
agents that differ only in their target race produce the same pair
force, and re-sampling a one-agent population keeps its original race. -/
theorem c5_clustering_uses_fixed_original_race_witness :
    ((Person.mk 0 "a" 0 1 0 0 0 0 none 0 0 ⟨0, 0⟩ ⟨0, 0⟩).position2D =
        (Person.mk 0 "a" 0 2 0 0 0 0 none 0 0 ⟨0, 0⟩ ⟨0, 0⟩).position2D ∧
      (Person.mk 0 "a" 0 1 0 0 0 0 none 0 0 ⟨0, 0⟩ ⟨0, 0⟩).originalRace =
        (Person.mk 0 "a" 0 2 0 0 0 0 none 0 0 ⟨0, 0⟩ ⟨0, 0⟩).originalRace) ∧
    (updateAssignAll ⟨0, []⟩
        [Person.mk 1 "b" 3 0 0 0 0 0 none 4 5 ⟨0, 0⟩ ⟨4, 5⟩]).map Person.originalRace =
      [Person.mk 1 "b" 3 0 0 0 0 0 none 4 5 ⟨0, 0⟩ ⟨4, 5⟩].map Person.originalRace :=
  ⟨⟨rfl, rfl⟩,
    (c5_clustering_uses_fixed_original_race (fun q => q) sourceClusteringConfig
      sourceClusterCenter 1 (1/2)
      (Person.mk 0 "a" 0 1 0 0 0 0 none 0 0 ⟨0, 0⟩ ⟨0, 0⟩)
      (Person.mk 0 "a" 0 1 0 0 0 0 none 0 0 ⟨0, 0⟩ ⟨0, 0⟩)
      (Person.mk 0 "a" 0 2 0 0 0 0 none 0 0 ⟨0, 0⟩ ⟨0, 0⟩)
      (Person.mk 0 "a" 0 2 0 0 0 0 none 0 0 ⟨0, 0⟩ ⟨0, 0⟩)
      ⟨0, []⟩ [Person.mk 1 "b" 3 0 0 0 0 0 none 4 5 ⟨0, 0⟩ ⟨4, 5⟩] 0
      rfl rfl rfl rfl).2.2.2⟩

/-- C10: one call `people[i].applyClusteringForce(progress)` mutates only
the receiving agent's kinematic state: every other agent of the
population is untouched, and the receiving agent keeps its `index`,
`name`, `originalRace`, `targetRace`, `ageIndex`, `targetAgeIndex`,
`educationLevel`, `targetEducationLevel` and `targetJobCategory`. -/
theorem c10_frame_effect (sqrtFn : ℚ → ℚ) (cfg : ClusteringConfig) (center : Vec2)
    (progress : ℚ) (people : List Person) (i : ℕ) :
    (∀ j, j ≠ i →
      (applyClusteringForceAt sqrtFn cfg center progress people i)[j]? = people[j]?) ∧
    (∀ p q, people[i]? = some p →
      (applyClusteringForceAt sqrtFn cfg center progress people i)[i]? = some q →
      q.index = p.index ∧ q.name = p.name ∧ q.originalRace = p.originalRace ∧
      q.targetRace = p.targetRace ∧ q.ageIndex = p.ageIndex ∧
      q.targetAgeIndex = p.targetAgeIndex ∧ q.educationLevel = p.educationLevel ∧
      q.targetEducationLevel = p.targetEducationLevel ∧
      q.targetJobCategory = p.targetJobCategory) := by
  constructor
  · intro j hj
    cases hpi : people[i]? with
    | none => simp [applyClusteringForceAt, hpi]
    | some self =>
      simp only [applyClusteringForceAt, hpi]
      exact List.getElem?_set_ne (fun h => hj h.symm)
  · intro p q hp hq
    simp only [applyClusteringForceAt, hp] at hq
    have hlen : i < people.length := (List.getElem?_eq_some.mp hp).1
    rw [List.getElem?_set_eq_of_lt _ hlen] at hq
    obtain rfl : applyClusteringForceSelf sqrtFn cfg center progress (people.eraseIdx i) p = q :=
      Option.some.inj hq
    exact ⟨rfl, rfl, rfl, rfl, rfl, rfl, rfl, rfl, rfl⟩

/-- Witness for `c10_frame_effect`: in a two-agent population, applying
the force to agent 0 leaves agent 1's stored state untouched. -/
theorem c10_frame_effect_witness :
    ((1 : ℕ) ≠ 0) ∧
    (applyClusteringForceAt (fun q => q) sourceClusteringConfig sourceClusterCenter (1/2)
        [Person.mk 0 "a" 0 1 0 0 0 0 none 0 0 ⟨0, 0⟩ ⟨0, 0⟩,
         Person.mk 1 "b" 2 3 1 1 1 1 none 4 5 ⟨0, 0⟩ ⟨4, 5⟩] 0)[1]? =
      ([Person.mk 0 "a" 0 1 0 0 0 0 none 0 0 ⟨0, 0⟩ ⟨0, 0⟩,
        Person.mk 1 "b" 2 3 1 1 1 1 none 4 5 ⟨0, 0⟩ ⟨4, 5⟩] :
        List Person)[1]? :=
  ⟨by norm_num,
    (c10_frame_effect (fun q => q) sourceClusteringConfig sourceClusterCenter (1/2)
      [Person.mk 0 "a" 0 1 0 0 0 0 none 0 0 ⟨0, 0⟩ ⟨0, 0⟩,
       Person.mk 1 "b" 2 3 1 1 1 1 none 4 5 ⟨0, 0⟩ ⟨4, 5⟩] 0).1 1 (by norm_num)⟩

/-- C6 counterexample: consider the throttle state whose last recompute
happened at time 0 with progress `1/5`, and a tick at time 200 with
progress still `1/5`.  The interval condition holds (200 > 100) but the
epsilon condition fails, and the recompute is SKIPPED — refuting the
claim's "both conditions must hold to skip the recompute" (the skip
happens precisely when NOT both conditions hold). -/
theorem c6_counterexample :
    scrubFired ⟨0, some (1/5)⟩ 200 (1/5) = false ∧
    ((200 : ℚ) - 0 > updateInterval) ∧
    ¬ |(1/5 : ℚ) - (1/5 : ℚ)| > 1/1000 := by
  refine ⟨?_, by norm_num [updateInterval], by norm_num⟩
  simp only [scrubFired, progressChanged, updateInterval, Option.getD_some]
  norm_num

/-- C6 (amended): the recompute guard fires exactly when BOTH conditions
hold — more than the 100 ms interval elapsed since the last recompute AND
the progress moved by more than the 0.001 epsilon — so failing either
condition skips the recompute; and since firing records the tick time,
two consecutive recomputes are always more than 100 ms apart. -/
theorem c6_throttle_guard (st : ScrubState) (now now2 prog prog2 : ℚ) :
    (scrubFired st now prog = true ↔
      (now - st.lastUpdateTime > 100 ∧ |prog - st.lastScrubProgress.getD (-1)| > 1/1000)) ∧
    (scrubFired st now prog = true →
      scrubFired (scrubStep st now prog) now2 prog2 = true → now2 - now > 100) := by
  have hiff : scrubFired st now prog = true ↔
      (now - st.lastUpdateTime > 100 ∧ |prog - st.lastScrubProgress.getD (-1)| > 1/1000) := by
    simp [scrubFired, progressChanged, updateInterval]
  refine ⟨hiff, ?_⟩
  intro h1 h2
  have hstep : scrubStep st now prog = ⟨now, some prog⟩ := by
    simp [scrubStep, h1]
  rw [hstep] at h2
  have := (by simpa [scrubFired, progressChanged, updateInterval] using h2 :
    now2 - now > 100 ∧ |prog2 - prog| > 1/1000)
  exact this.1

/-- Witness for `c6_throttle_guard`: a recompute at time 200 followed by
one accepted at time 301 are more than 100 ms apart. -/
theorem c6_throttle_guard_witness :
    (scrubFired ⟨0, some (1/5)⟩ 200 (7/10) = true ∧
      scrubFired (scrubStep ⟨0, some (1/5)⟩ 200 (7/10)) 301 (1/5) = true) ∧
    (301 : ℚ) - 200 > 100 := by
  have h1 : scrubFired ⟨0, some (1/5)⟩ 200 (7/10) = true := by
    simp only [scrubFired, progressChanged, updateInterval, Option.getD_some]
    norm_num [lt_abs]
  have h2 : scrubFired (scrubStep ⟨0, some (1/5)⟩ 200 (7/10)) 301 (1/5) = true := by
    have hstep : scrubStep (⟨0, some (1/5)⟩ : ScrubState) 200 (7/10) = ⟨200, some (7/10)⟩ := by
      unfold scrubStep
      rw [h1]
      rfl
    rw [hstep]
    simp only [scrubFired, progressChanged, updateInterval, Option.getD_some]
    norm_num [lt_abs]
  exact ⟨⟨h1, h2⟩,
    (c6_throttle_guard ⟨0, some (1/5)⟩ 200 301 (7/10) (1/5)).2 h1 h2⟩

end DiversityViz
